import Mathlib

/-!
# Verification of the linkerd2-proxy metrics/retry instrumentation excerpt

Shallow embedding of `src/app/dst.rs` (the `Retry` retry-eligibility
decision) and `src/proxy/http/metrics/service.rs` (the `Measure`
middleware with its `RequestBody` / `ResponseBody` / `ResponseFuture`
wrappers).  Clocks (`tokio_timer::clock::now()`) are modelled by passing
the current instant (a `Nat`) explicitly to each operation; the shared
`Arc<Mutex<Metrics>>` aggregate is modelled by threading a `Metrics`
value explicitly, together with a boolean flag recording whether the
wrapper still holds its (`Option`al) handle to the aggregate.
-/

namespace Linkerd

/-! ## Retry decision (src/app/dst.rs)

The budget type `tower_retry::budget::Budget` and the classification
types `classify::Class` / `profiles::ResponseClasses` live outside the
excerpt, so they are modelled from the spec. -/

/-- Modelled from the spec: `tower_retry::budget::Budget` is external to
the excerpt.  Contract (spec §3 RetryBudget): *withdraw* consumes one
unit and fails when the budget is exhausted; *deposit* replenishes and
never fails.  The internal refill/decay policy is unspecified, so the
budget is modelled as its available balance. -/
structure Budget where
  balance : Nat
deriving DecidableEq, Repr

def Budget.withdraw (b : Budget) : Option Budget :=
  if b.balance = 0 then none else some ⟨b.balance - 1⟩

def Budget.deposit (b : Budget) : Budget :=
  ⟨b.balance + 1⟩

/-- Modelled from the spec: `classify::Class` is external to the excerpt;
`Retry::retry` only consults its `is_failure()` accessor. -/
structure Class where
  is_failure : Bool
deriving DecidableEq, Repr

/-- Modelled from the spec: one entry of `profiles::ResponseClasses`
(external to the excerpt); `Retry::retry` consults `is_match(res)` and
`is_failure()` on each entry, first match winning. -/
structure ResponseClass (Rsp : Type) where
  is_match : Rsp → Bool
  is_failure : Bool

/-- `proxy::http::retry::NoRetry` as used by `Retry::retry`. -/
inductive NoRetry
  | timeout
  | budget
  | success
deriving DecidableEq, Repr

/-- Which operation `Retry::retry` invoked on the shared budget (the
side-effect trace of one invocation). -/
inductive BudgetOp
  | withdraw
  | deposit
deriving DecidableEq, Repr

/-- `app::dst::Retry` minus the shared `Arc<Budget>`, which is threaded
explicitly through `Retry.retry`. -/
structure Retry (Rsp : Type) where
  response_classes : List (ResponseClass Rsp)
  timeout : Nat

/-- `Retry::retry` from src/app/dst.rs.  `now` is `clock::now()`;
`attached` is `res.extensions().get::<classify::Class>()`.  Returns the
decision, the budget after the call, and the list of budget operations
performed (a failed `withdraw` still performed a withdraw). -/
def Retry.retry {Rsp : Type} (r : Retry Rsp) (now started_at : Nat)
    (attached : Option Class) (res : Rsp) (b : Budget) :
    Except NoRetry Unit × Budget × List BudgetOp :=
  if r.timeout < now - started_at then
    (.error .timeout, b, [])
  else
    let is_failure : Bool :=
      match attached with
      | some cls => cls.is_failure
      | none =>
        match r.response_classes.find? (fun cls => cls.is_match res) with
        | some cls => cls.is_failure
        | none => false
    if is_failure then
      match b.withdraw with
      | some b2 => (.ok (), b2, [.withdraw])
      | none => (.error .budget, b, [.withdraw])
    else
      (.error .success, b.deposit, [.deposit])

end Linkerd

namespace Linkerd

/-! ## Theorems about the retry decision -/

/-- C5: past the timeout the decision is `Timeout`, the budget is
untouched and no budget operation is performed, for every response,
attached classification and budget state. -/
theorem retry_timeout {Rsp : Type} (r : Retry Rsp) (now started_at : Nat)
    (attached : Option Class) (res : Rsp) (b : Budget)
    (h : r.timeout < now - started_at) :
    r.retry now started_at attached res b = (.error .timeout, b, []) := by
  simp [Retry.retry, h]

/-- Witness for `retry_timeout` at concrete inputs. -/
theorem retry_timeout_witness :
    (Retry.timeout ({ response_classes := [], timeout := 3 } : Retry Unit) < 10 - 2) ∧
      Retry.retry ({ response_classes := [], timeout := 3 } : Retry Unit) 10 2
        none () ⟨5⟩ = (.error .timeout, ⟨5⟩, []) :=
  ⟨by decide, retry_timeout _ 10 2 none () ⟨5⟩ (by decide)⟩

/-- The failure verdict computed by `Retry::retry` (src/app/dst.rs lines
71–82): an attached classification wins; otherwise the first rule in
rule order matching the response; a response matching no rule is a
success. -/
def retryVerdict {Rsp : Type} (r : Retry Rsp) (attached : Option Class)
    (res : Rsp) : Bool :=
  match attached with
  | some cls => cls.is_failure
  | none =>
    match r.response_classes.find? (fun cls => cls.is_match res) with
    | some cls => cls.is_failure
    | none => false

/-- C3: within the timeout, an attached classification alone determines
the outcome (the route's rules are never consulted), the verdict is the
attached class's failure flag or else the first matching rule's (no
match meaning success); a failure verdict yields `Ok` exactly when the
budget has a unit to withdraw and `Err Budget` when it is exhausted, and
a success verdict deposits one unit and yields `Err Success`. -/
theorem retry_within_timeout {Rsp : Type} (r : Retry Rsp)
    (now started_at : Nat) (attached : Option Class) (res : Rsp)
    (b : Budget) (h : now - started_at ≤ r.timeout) :
    (∀ (cls : Class) (rules2 : List (ResponseClass Rsp)),
        attached = some cls →
        r.retry now started_at attached res b =
          Retry.retry ⟨rules2, r.timeout⟩ now started_at attached res b) ∧
    (retryVerdict r attached res = true → 0 < b.balance →
        r.retry now started_at attached res b =
          (.ok (), ⟨b.balance - 1⟩, [.withdraw])) ∧
    (retryVerdict r attached res = true → b.balance = 0 →
        r.retry now started_at attached res b =
          (.error .budget, b, [.withdraw])) ∧
    (retryVerdict r attached res = false →
        r.retry now started_at attached res b =
          (.error .success, ⟨b.balance + 1⟩, [.deposit])) := by
  have hnot : ¬ r.timeout < now - started_at := Nat.not_lt.mpr h
  refine ⟨?_, ?_, ?_, ?_⟩
  · rintro cls rules2 rfl
    simp [Retry.retry, hnot]
  · intro hv hb
    simp [Retry.retry, hnot, retryVerdict] at hv ⊢
    simp [hv, Budget.withdraw, Nat.pos_iff_ne_zero.mp hb]
  · intro hv hb
    simp [Retry.retry, hnot, retryVerdict] at hv ⊢
    simp [hv, Budget.withdraw, hb]
  · intro hv
    simp [Retry.retry, hnot, retryVerdict] at hv ⊢
    simp [hv, Budget.deposit]

/-- Witness for `retry_within_timeout`: a failing response (matched by
the route's single always-failure rule) within the timeout withdraws the
budget's unit and permits the retry. -/
theorem retry_within_timeout_witness :
    (7 - 2 ≤ Retry.timeout ({ response_classes := [⟨fun _ => true, true⟩], timeout := 9 } :
        Retry Unit)) ∧
      Retry.retry ({ response_classes := [⟨fun _ => true, true⟩], timeout := 9 } : Retry Unit)
          7 2 none () ⟨4⟩ = (.ok (), ⟨3⟩, [.withdraw]) := by
  refine ⟨by decide, ?_⟩
  have h := retry_within_timeout
    ({ response_classes := [⟨fun _ => true, true⟩], timeout := 9 } : Retry Unit)
    7 2 none () ⟨4⟩ (by decide)
  exact h.2.1 (by simp [retryVerdict]) (by decide)

/-- C4 counterexample: an invocation past the timeout performs no budget
operation at all — the budget is returned untouched and the side-effect
trace is empty — refuting "every invocation mutates the shared budget". -/
theorem retry_no_budget_effect_on_timeout :
    Retry.retry ({ response_classes := [], timeout := 5 } : Retry Unit)
        100 0 none () ⟨7⟩ = (.error .timeout, ⟨7⟩, []) := by
  rfl

/-- C4 amended: every invocation whose elapsed time is within the route's
retry timeout performs exactly one budget operation (a withdraw or a
deposit). -/
theorem retry_always_budget_op_within_timeout {Rsp : Type} (r : Retry Rsp)
    (now started_at : Nat) (attached : Option Class) (res : Rsp)
    (b : Budget) (h : now - started_at ≤ r.timeout) :
    (r.retry now started_at attached res b).2.2 = [.withdraw] ∨
      (r.retry now started_at attached res b).2.2 = [.deposit] := by
  have hnot : ¬ r.timeout < now - started_at := Nat.not_lt.mpr h
  simp only [Retry.retry, hnot, if_false]
  rcases hv : (match attached with
    | some cls => cls.is_failure
    | none =>
      match r.response_classes.find? (fun cls => cls.is_match res) with
      | some cls => cls.is_failure
      | none => false : Bool) with _ | _
  · simp [hv]
  · rcases hw : b.withdraw with _ | b2 <;> simp [hv, hw]

/-- Witness for `retry_always_budget_op_within_timeout` at concrete
inputs. -/
theorem retry_always_budget_op_witness :
    (4 - 1 ≤ Retry.timeout ({ response_classes := [], timeout := 8 } : Retry Unit)) ∧
      ((Retry.retry ({ response_classes := [], timeout := 8 } : Retry Unit)
          4 1 none () ⟨0⟩).2.2 = [.withdraw] ∨
        (Retry.retry ({ response_classes := [], timeout := 8 } : Retry Unit)
          4 1 none () ⟨0⟩).2.2 = [.deposit]) :=
  ⟨by decide,
    retry_always_budget_op_within_timeout _ 4 1 none () ⟨0⟩ (by decide)⟩

/-! ## HTTP metrics middleware (src/proxy/http/metrics/service.rs)

The shared `Arc<Mutex<Metrics<C>>>` aggregate is modelled by threading a
`Metrics C` value through each operation; whether a wrapper still holds
its `Option`al handle to that aggregate is a `Bool` field of the
wrapper's state.  `Mutex::lock` on the aggregate is modelled as always
succeeding (this model is single-threaded, so no lock is ever poisoned
by a panicking concurrent holder); the registry lock's outcome in
`Make::make` — which the code inspects explicitly — is an input.
`clock::now()` is an explicit `Nat` argument; `Instant` subtraction is
carried out in `Int`. -/

/-- `ClassMetrics`: a class's counter plus its latency histogram,
modelled as the list of recorded latency values. -/
structure ClassMetrics where
  total : Nat
  latency : List Int
deriving DecidableEq, Repr

/-- `ClassMetrics` after `total.incr()` and `latency.add(d)`. -/
def ClassMetrics.record (m : ClassMetrics) (d : Int) : ClassMetrics :=
  { total := m.total + 1, latency := m.latency ++ [d] }

/-- `Metrics<C>`: the per-destination aggregate. -/
structure Metrics (C : Type) where
  total : Nat
  by_class : List (C × ClassMetrics)
  unclassified : ClassMetrics
deriving Repr

/-- `Metrics::default()`. -/
def Metrics.default (C : Type) : Metrics C :=
  { total := 0, by_class := [], unclassified := { total := 0, latency := [] } }

/-- `by_class.entry(c).or_insert_with(ClassMetrics::default)` followed by
the increment and latency add, on the association list modelling the
`IndexMap`. -/
def recordInByClass {C : Type} [DecidableEq C] :
    List (C × ClassMetrics) → C → Int → List (C × ClassMetrics)
  | [], c, d => [(c, ClassMetrics.record { total := 0, latency := [] } d)]
  | (k, v) :: rest, c, d =>
    if k = c then (k, v.record d) :: rest
    else (k, v) :: recordInByClass rest c d

/-- The aggregate after one classification event: a named class goes to
its `by_class` entry (created on first use), `None` to the
`unclassified` bucket (src/proxy/http/metrics/service.rs lines
318–328). -/
def Metrics.recordEvent {C : Type} [DecidableEq C] (m : Metrics C)
    (cls : Option C) (d : Int) : Metrics C :=
  match cls with
  | some c => { m with by_class := recordInByClass m.by_class c d }
  | none => { m with unclassified := m.unclassified.record d }

/-- `ClassifyResponse` capability: `start` on the response head may
yield an early class; `error` and `eos` yield the final class. -/
structure ClassifyResponse (H E T C : Type) where
  start : H → Option C
  error : E → C
  eos : Option T → C

/-- One invocation of a classification-strategy operation, for tracing
how often the strategy fires. -/
inductive StratOp (H E T : Type)
  | start (h : H)
  | error (e : E)
  | eos (t : Option T)

/-- `futures 0.1` poll outcome: `Ok(Async::Ready(a))`,
`Ok(Async::NotReady)` or `Err(e)`. -/
inductive Poll01 (A E : Type)
  | ready (a : A)
  | notReady
  | err (e : E)
deriving DecidableEq, Repr

/-- `ResponseBody<B, C>` state (the inner body is external; its poll
results are inputs). -/
structure ResponseBody (H E T C : Type) where
  class_at_first_byte : Option C
  classify : Option (ClassifyResponse H E T C)
  metrics : Bool
  stream_open_at : Nat
  first_byte_at : Option Nat

/-- `ResponseBody::record_class`: takes the metrics handle (returning
with no mutation when it was already taken), then records one event with
latency `first_byte_at.unwrap_or(now) - stream_open_at`. -/
def ResponseBody.record_class {H E T C : Type} [DecidableEq C] (now : Nat)
    (b : ResponseBody H E T C) (agg : Metrics C) (cls : Option C) :
    ResponseBody H E T C × Metrics C :=
  if b.metrics then
    let first_byte_at := b.first_byte_at.getD now
    ({ b with metrics := false },
      agg.recordEvent cls ((first_byte_at : Int) - (b.stream_open_at : Int)))
  else
    (b, agg)

/-- `ResponseBody::measure_err`: clears the pending head class, routes
the error through the strategy's `error` operation (consuming the
strategy), records the resulting class, and hands the same error back. -/
def ResponseBody.measure_err {H E T C : Type} [DecidableEq C] (now : Nat)
    (b : ResponseBody H E T C) (agg : Metrics C) (e : E) :
    ResponseBody H E T C × Metrics C × List (StratOp H E T) × E :=
  let b1 := { b with class_at_first_byte := none }
  match b1.classify with
  | some c =>
    let r :=
      ResponseBody.record_class now { b1 with classify := none } agg (some (c.error e))
    (r.1, r.2, [.error e], e)
  | none =>
    let r := ResponseBody.record_class now b1 agg none
    (r.1, r.2, [], e)

/-- `ResponseBody::poll_data`, parameterized by the inner body's poll
result.  Returns the new state, the aggregate, the strategy operations
invoked, and the caller-visible poll result. -/
def ResponseBody.poll_data {H E T C D : Type} [DecidableEq C] (now : Nat)
    (b : ResponseBody H E T C) (agg : Metrics C)
    (inner : Poll01 (Option D) E) :
    ResponseBody H E T C × Metrics C × List (StratOp H E T) × Poll01 (Option D) E :=
  match inner with
  | .err e =>
    let r := b.measure_err now agg e
    (r.1, r.2.1, r.2.2.1, .err r.2.2.2)
  | .notReady => (b, agg, [], .notReady)
  | .ready frame =>
    let b1 :=
      if b.first_byte_at.isNone then { b with first_byte_at := some now } else b
    match b1.class_at_first_byte with
    | some c =>
      let r :=
        ResponseBody.record_class now { b1 with class_at_first_byte := none } agg (some c)
      (r.1, r.2, [], .ready frame)
    | none =>
      ({ b1 with class_at_first_byte := none }, agg, [], .ready frame)

/-- `ResponseBody::poll_trailers`, parameterized by the inner body's
poll result. -/
def ResponseBody.poll_trailers {H E T C : Type} [DecidableEq C] (now : Nat)
    (b : ResponseBody H E T C) (agg : Metrics C)
    (inner : Poll01 (Option T) E) :
    ResponseBody H E T C × Metrics C × List (StratOp H E T) × Poll01 (Option T) E :=
  match inner with
  | .err e =>
    let r := b.measure_err now agg e
    (r.1, r.2.1, r.2.2.1, .err r.2.2.2)
  | .notReady => (b, agg, [], .notReady)
  | .ready trls =>
    match b.classify with
    | some c =>
      let r :=
        ResponseBody.record_class now { b with classify := none } agg (some (c.eos trls))
      (r.1, r.2, [.eos trls], .ready trls)
    | none =>
      let r := ResponseBody.record_class now b agg none
      (r.1, r.2, [], .ready trls)

/-- `impl Drop for ResponseBody`: the teardown finalizer fires the
strategy's `eos(None)` path (when the strategy is still held) and
records the resulting class. -/
def ResponseBody.dropFinalize {H E T C : Type} [DecidableEq C] (now : Nat)
    (b : ResponseBody H E T C) (agg : Metrics C) :
    ResponseBody H E T C × Metrics C × List (StratOp H E T) :=
  match b.classify with
  | some c =>
    let r :=
      ResponseBody.record_class now { b with classify := none } agg (some (c.eos none))
    (r.1, r.2, [.eos none])
  | none =>
    let r := ResponseBody.record_class now b agg none
    (r.1, r.2, [])

/-- `RequestBody<B, C>` state: only the optional metrics handle. -/
structure RequestBody where
  metrics : Bool
deriving DecidableEq, Repr

/-- `RequestBody::poll_data`: on any `Ready` result from the inner body
(data frame or end-of-stream), takes the metrics handle and increments
the aggregate's `total` counter; `NotReady` and errors pass through
untouched. -/
def RequestBody.poll_data {C D E : Type} (b : RequestBody) (agg : Metrics C)
    (inner : Poll01 (Option D) E) :
    RequestBody × Metrics C × Poll01 (Option D) E :=
  match inner with
  | .err e => (b, agg, .err e)
  | .notReady => (b, agg, .notReady)
  | .ready frame =>
    if b.metrics then
      ({ metrics := false }, { agg with total := agg.total + 1 }, .ready frame)
    else
      (b, agg, .ready frame)

/-- `RequestBody::poll_trailers` passes through the inner result. -/
def RequestBody.poll_trailers {C T E : Type} (b : RequestBody) (agg : Metrics C)
    (inner : Poll01 (Option T) E) :
    RequestBody × Metrics C × Poll01 (Option T) E :=
  (b, agg, inner)

/-- `impl Drop for RequestBody` is an explicit no-op. -/
def RequestBody.dropFinalize {C : Type} (b : RequestBody) (agg : Metrics C) :
    RequestBody × Metrics C :=
  (b, agg)

/-- `ResponseFuture<S, C>` state (the inner future is external; its poll
result is an input). -/
structure ResponseFuture (H E T C : Type) where
  classify : Option (ClassifyResponse H E T C)
  metrics : Bool
  stream_open_at : Nat

/-- `ResponseFuture::poll`: an inner error or `NotReady` passes straight
through (`try_ready!`), touching neither the strategy nor the aggregate;
a ready head takes the strategy, runs its `start` operation, and builds
the `ResponseBody` wrapper around the head. -/
def ResponseFuture.poll {H E T C : Type} (f : ResponseFuture H E T C)
    (agg : Metrics C) (inner : Poll01 H E) :
    ResponseFuture H E T C × Metrics C × List (StratOp H E T) ×
      Poll01 (H × ResponseBody H E T C) E :=
  match inner with
  | .err e => (f, agg, [], .err e)
  | .notReady => (f, agg, [], .notReady)
  | .ready head =>
    let classify := f.classify
    let f2 := { f with classify := none }
    let (class_at_first_byte, ops) :=
      match classify with
      | some c => (c.start head, [StratOp.start head])
      | none => (none, [])
    let body : ResponseBody H E T C :=
      { class_at_first_byte := class_at_first_byte
        classify := classify
        metrics := f.metrics
        stream_open_at := f.stream_open_at
        first_byte_at := none }
    (f2, agg, ops, .ready (head, body))

/-- `Measure<S, C>` state: only the optional metrics handle (the inner
service is external). -/
structure Measure where
  metrics : Bool
deriving DecidableEq, Repr

/-- `Measure::call`: when the request body is already at end-of-stream,
takes the request-side handle clone and increments `total` synchronously;
wraps the body in a `RequestBody` carrying what is left of that clone,
and returns a `ResponseFuture` carrying a fresh clone of the handle and
the stream-open instant. -/
def Measure.call {H E T C : Type} (m : Measure) (agg : Metrics C)
    (req_is_end_stream : Bool)
    (req_classify : Option (ClassifyResponse H E T C)) (now : Nat) :
    Metrics C × RequestBody × ResponseFuture H E T C :=
  let req_metrics := m.metrics
  let (req_metrics, agg) :=
    if req_is_end_stream then
      if req_metrics then (false, { agg with total := agg.total + 1 })
      else (req_metrics, agg)
    else
      (req_metrics, agg)
  (agg,
    { metrics := req_metrics },
    { classify := req_classify, metrics := m.metrics, stream_open_at := now })

/-- `Registry<T, C>`: the by-target map, as an association list. -/
structure Registry (T C : Type) where
  by_target : List (T × Metrics C)

/-- `or_insert_with(Metrics::default)` lookup on the registry map. -/
def Registry.getOrInsert {T C : Type} [DecidableEq T] (r : Registry T C)
    (target : T) : Registry T C :=
  match r.by_target.find? (fun p => p.1 = target) with
  | some _ => r
  | none => { by_target := r.by_target ++ [(target, Metrics.default C)] }

/-- `Make::make`: a failure of the inner factory propagates; otherwise,
when the registry lock is acquired the target's entry is created on
first use and its handle stored in the `Measure`, and when the lock
cannot be acquired the `Measure` is still built, with no handle. -/
def Make.make {T C F S : Type} [DecidableEq T] (lockOk : Bool)
    (registry : Registry T C) (target : T) (innerResult : Except F S) :
    Except F (Measure × S) × Registry T C :=
  match innerResult with
  | .error e => (.error e, registry)
  | .ok s =>
    if lockOk then
      (.ok ({ metrics := true }, s), registry.getOrInsert target)
    else
      (.ok ({ metrics := false }, s), registry)

/-! ## Derived quantities and exchange traces -/

/-- Number of classification events an aggregate holds: the
`unclassified` bucket's count plus every named class's count. -/
def Metrics.classEvents {C : Type} (m : Metrics C) : Nat :=
  m.unclassified.total + (m.by_class.map (fun p => p.2.total)).sum

/-- Sum of every latency value an aggregate holds, over the
`unclassified` bucket and every named class. -/
def Metrics.latencySum {C : Type} (m : Metrics C) : Int :=
  m.unclassified.latency.sum + (m.by_class.map (fun p => p.2.latency.sum)).sum

/-- 1 while the response body still holds its metrics handle. -/
def handleBit {H E T C : Type} (b : ResponseBody H E T C) : Nat :=
  if b.metrics then 1 else 0

/-- 1 while the response body still holds its classification strategy. -/
def classifyBit {H E T C : Type} (b : ResponseBody H E T C) : Nat :=
  if b.classify.isSome then 1 else 0

/-- One externally driven step of a response-body stream: a `poll_data`
or `poll_trailers` call at some instant, with the inner body's result. -/
inductive RspEvent (D T E : Type)
  | pollData (now : Nat) (inner : Poll01 (Option D) E)
  | pollTrailers (now : Nat) (inner : Poll01 (Option T) E)

/-- Run a response body through a sequence of poll events, accumulating
the strategy operations invoked. -/
def runRsp {H E T C D : Type} [DecidableEq C] :
    List (RspEvent D T E) → ResponseBody H E T C → Metrics C →
    ResponseBody H E T C × Metrics C × List (StratOp H E T)
  | [], b, agg => (b, agg, [])
  | .pollData now inner :: rest, b, agg =>
    let s := b.poll_data now agg inner
    let r := runRsp rest s.1 s.2.1
    (r.1, r.2.1, s.2.2.1 ++ r.2.2)
  | .pollTrailers now inner :: rest, b, agg =>
    let s := b.poll_trailers now agg inner
    let r := runRsp rest s.1 s.2.1
    (r.1, r.2.1, s.2.2.1 ++ r.2.2)

/-- A complete response-body lifetime: any sequence of poll events, then
the guaranteed drop finalizer. -/
def runRspDrop {H E T C D : Type} [DecidableEq C]
    (evts : List (RspEvent D T E)) (dropTime : Nat)
    (b : ResponseBody H E T C) (agg : Metrics C) :
    ResponseBody H E T C × Metrics C × List (StratOp H E T) :=
  let r := runRsp evts b agg
  let d := ResponseBody.dropFinalize dropTime r.1 r.2.1
  (d.1, d.2.1, r.2.2 ++ d.2.2)

/-- One externally driven step of a request-body stream. -/
inductive ReqEvent (D T E : Type)
  | pollData (inner : Poll01 (Option D) E)
  | pollTrailers (inner : Poll01 (Option T) E)

/-- Run a request body through a sequence of poll events. -/
def runReq {C D T E : Type} :
    List (ReqEvent D T E) → RequestBody → Metrics C → RequestBody × Metrics C
  | [], b, agg => (b, agg)
  | .pollData inner :: rest, b, agg =>
    let s := b.poll_data agg inner
    runReq rest s.1 s.2.1
  | .pollTrailers inner :: rest, b, agg =>
    let s := b.poll_trailers agg inner
    runReq rest s.1 s.2.1

/-- Whether some event of the trace is a `poll_data` whose inner result
is `Ready` (a data frame or the end-of-stream `None`). -/
def hasReadyData {D T E : Type} : List (ReqEvent D T E) → Bool
  | [] => false
  | .pollData (.ready _) :: _ => true
  | _ :: rest => hasReadyData rest

/-! ## Aggregate lemmas -/

theorem recordInByClass_totalSum {C : Type} [DecidableEq C]
    (l : List (C × ClassMetrics)) (c : C) (d : Int) :
    ((recordInByClass l c d).map (fun p => p.2.total)).sum =
      (l.map (fun p => p.2.total)).sum + 1 := by
  induction l with
  | nil => simp [recordInByClass, ClassMetrics.record]
  | cons kv rest ih =>
    by_cases hk : kv.1 = c
    · simp [recordInByClass, hk, ClassMetrics.record]
      omega
    · simp [recordInByClass, hk, ih]
      omega

theorem recordInByClass_latSum {C : Type} [DecidableEq C]
    (l : List (C × ClassMetrics)) (c : C) (d : Int) :
    ((recordInByClass l c d).map (fun p => p.2.latency.sum)).sum =
      (l.map (fun p => p.2.latency.sum)).sum + d := by
  induction l with
  | nil => simp [recordInByClass, ClassMetrics.record]
  | cons kv rest ih =>
    by_cases hk : kv.1 = c
    · simp [recordInByClass, hk, ClassMetrics.record]
      ring
    · simp [recordInByClass, hk, ih]
      ring

theorem classEvents_recordEvent {C : Type} [DecidableEq C] (m : Metrics C)
    (cls : Option C) (d : Int) :
    (m.recordEvent cls d).classEvents = m.classEvents + 1 := by
  cases cls with
  | none =>
    simp [Metrics.recordEvent, Metrics.classEvents, ClassMetrics.record]
    omega
  | some c =>
    simp [Metrics.recordEvent, Metrics.classEvents, recordInByClass_totalSum]
    omega

theorem latencySum_recordEvent {C : Type} [DecidableEq C] (m : Metrics C)
    (cls : Option C) (d : Int) :
    (m.recordEvent cls d).latencySum = m.latencySum + d := by
  cases cls with
  | none =>
    simp [Metrics.recordEvent, Metrics.latencySum, ClassMetrics.record]
    ring
  | some c =>
    simp [Metrics.recordEvent, Metrics.latencySum, recordInByClass_latSum]
    ring

theorem total_recordEvent {C : Type} [DecidableEq C] (m : Metrics C)
    (cls : Option C) (d : Int) :
    (m.recordEvent cls d).total = m.total := by
  cases cls <;> rfl

/-! ## record_class lemmas -/

theorem record_class_conservation {H E T C : Type} [DecidableEq C] (now : Nat)
    (b : ResponseBody H E T C) (agg : Metrics C) (cls : Option C) :
    ((b.record_class now agg cls).2).classEvents +
        handleBit (b.record_class now agg cls).1 =
      agg.classEvents + handleBit b := by
  by_cases h : b.metrics <;>
    simp [ResponseBody.record_class, h, handleBit, classEvents_recordEvent]

theorem record_class_handle_mono {H E T C : Type} [DecidableEq C] (now : Nat)
    (b : ResponseBody H E T C) (agg : Metrics C) (cls : Option C) :
    handleBit (b.record_class now agg cls).1 ≤ handleBit b := by
  by_cases h : b.metrics <;>
    simp [ResponseBody.record_class, h, handleBit]

theorem record_class_classify {H E T C : Type} [DecidableEq C] (now : Nat)
    (b : ResponseBody H E T C) (agg : Metrics C) (cls : Option C) :
    (b.record_class now agg cls).1.classify = b.classify := by
  by_cases h : b.metrics <;> simp [ResponseBody.record_class, h]

theorem record_class_taken {H E T C : Type} [DecidableEq C] (now : Nat)
    (b : ResponseBody H E T C) (agg : Metrics C) (cls : Option C)
    (h : b.metrics = false) :
    b.record_class now agg cls = (b, agg) := by
  simp [ResponseBody.record_class, h]

theorem record_class_handle_false {H E T C : Type} [DecidableEq C] (now : Nat)
    (b : ResponseBody H E T C) (agg : Metrics C) (cls : Option C) :
    (b.record_class now agg cls).1.metrics = false := by
  by_cases h : b.metrics <;> simp [ResponseBody.record_class, h]

/-! ## Step lemmas: each poll/drop step conserves
`classEvents + handleBit`, never re-arms the handle or the strategy,
invokes at most `classifyBit` strategy operations, and passes the inner
result through. -/

theorem measure_err_step {H E T C : Type} [DecidableEq C] (now : Nat)
    (b : ResponseBody H E T C) (agg : Metrics C) (e : E) :
    ((b.measure_err now agg e).2.1).classEvents +
          handleBit (b.measure_err now agg e).1 =
        agg.classEvents + handleBit b ∧
      handleBit (b.measure_err now agg e).1 ≤ handleBit b ∧
      ((b.measure_err now agg e).2.2.1).length +
          classifyBit (b.measure_err now agg e).1 ≤
        classifyBit b ∧
      (b.measure_err now agg e).2.2.2 = e := by
  obtain ⟨cafb, clsfy, mtr, so, fb⟩ := b
  cases clsfy <;> cases mtr <;>
    simp [ResponseBody.measure_err, ResponseBody.record_class, handleBit,
      classifyBit, classEvents_recordEvent]

theorem poll_data_step {H E T C D : Type} [DecidableEq C] (now : Nat)
    (b : ResponseBody H E T C) (agg : Metrics C)
    (inner : Poll01 (Option D) E) :
    ((b.poll_data now agg inner).2.1).classEvents +
          handleBit (b.poll_data now agg inner).1 =
        agg.classEvents + handleBit b ∧
      handleBit (b.poll_data now agg inner).1 ≤ handleBit b ∧
      ((b.poll_data now agg inner).2.2.1).length +
          classifyBit (b.poll_data now agg inner).1 ≤
        classifyBit b ∧
      (b.poll_data now agg inner).2.2.2 = inner := by
  obtain ⟨cafb, clsfy, mtr, so, fb⟩ := b
  cases inner <;> cases cafb <;> cases clsfy <;> cases mtr <;> cases fb <;>
    simp [ResponseBody.poll_data, ResponseBody.measure_err,
      ResponseBody.record_class, handleBit, classifyBit,
      classEvents_recordEvent]

theorem poll_trailers_step {H E T C : Type} [DecidableEq C] (now : Nat)
    (b : ResponseBody H E T C) (agg : Metrics C)
    (inner : Poll01 (Option T) E) :
    ((b.poll_trailers now agg inner).2.1).classEvents +
          handleBit (b.poll_trailers now agg inner).1 =
        agg.classEvents + handleBit b ∧
      handleBit (b.poll_trailers now agg inner).1 ≤ handleBit b ∧
      ((b.poll_trailers now agg inner).2.2.1).length +
          classifyBit (b.poll_trailers now agg inner).1 ≤
        classifyBit b ∧
      (b.poll_trailers now agg inner).2.2.2 = inner := by
  obtain ⟨cafb, clsfy, mtr, so, fb⟩ := b
  cases inner <;> cases cafb <;> cases clsfy <;> cases mtr <;> cases fb <;>
    simp [ResponseBody.poll_trailers, ResponseBody.measure_err,
      ResponseBody.record_class, handleBit, classifyBit,
      classEvents_recordEvent]

theorem dropFinalize_step {H E T C : Type} [DecidableEq C] (now : Nat)
    (b : ResponseBody H E T C) (agg : Metrics C) :
    ((b.dropFinalize now agg).2.1).classEvents =
        agg.classEvents + handleBit b ∧
      handleBit (b.dropFinalize now agg).1 = 0 ∧
      ((b.dropFinalize now agg).2.2).length +
          classifyBit (b.dropFinalize now agg).1 ≤
        classifyBit b := by
  obtain ⟨cafb, clsfy, mtr, so, fb⟩ := b
  cases clsfy <;> cases mtr <;>
    simp [ResponseBody.dropFinalize, ResponseBody.record_class, handleBit,
      classifyBit, classEvents_recordEvent]

/-! ## Run lemmas -/

theorem runRsp_conservation {H E T C D : Type} [DecidableEq C]
    (evts : List (RspEvent D T E)) (b : ResponseBody H E T C)
    (agg : Metrics C) :
    ((runRsp evts b agg).2.1).classEvents + handleBit (runRsp evts b agg).1 =
        agg.classEvents + handleBit b ∧
      handleBit (runRsp evts b agg).1 ≤ handleBit b ∧
      ((runRsp evts b agg).2.2).length + classifyBit (runRsp evts b agg).1 ≤
        classifyBit b := by
  induction evts generalizing b agg with
  | nil => simp [runRsp]
  | cons evt rest ih =>
    cases evt with
    | pollData now inner =>
      have hs := poll_data_step now b agg inner
      have hr := ih (b.poll_data now agg inner).1 (b.poll_data now agg inner).2.1
      simp only [runRsp, List.length_append]
      omega
    | pollTrailers now inner =>
      have hs := poll_trailers_step now b agg inner
      have hr := ih (b.poll_trailers now agg inner).1 (b.poll_trailers now agg inner).2.1
      simp only [runRsp, List.length_append]
      omega

theorem runRspDrop_conservation {H E T C D : Type} [DecidableEq C]
    (evts : List (RspEvent D T E)) (dropTime : Nat)
    (b : ResponseBody H E T C) (agg : Metrics C) :
    ((runRspDrop evts dropTime b agg).2.1).classEvents =
        agg.classEvents + handleBit b ∧
      ((runRspDrop evts dropTime b agg).2.2).length ≤ classifyBit b := by
  have hr := runRsp_conservation evts b agg
  have hd := dropFinalize_step dropTime (runRsp evts b agg).1 (runRsp evts b agg).2.1
  simp only [runRspDrop, List.length_append]
  omega

theorem runReq_spec {C D T E : Type} (evts : List (ReqEvent D T E))
    (b : RequestBody) (agg : Metrics C) :
    ((runReq evts b agg).2).total =
        agg.total + (if b.metrics && hasReadyData evts then 1 else 0) ∧
      ((runReq evts b agg).2).by_class = agg.by_class ∧
      ((runReq evts b agg).2).unclassified = agg.unclassified := by
  induction evts generalizing b agg with
  | nil => simp [runReq, hasReadyData]
  | cons evt rest ih =>
    rcases b with ⟨mtr⟩
    cases evt with
    | pollData inner =>
      cases inner <;> cases mtr <;>
        simp [runReq, RequestBody.poll_data, hasReadyData, ih]
    | pollTrailers inner =>
      cases mtr <;>
        simp [runReq, RequestBody.poll_trailers, hasReadyData, ih]

/-- With no metrics handle, a request-body run leaves the aggregate
entirely untouched. -/
theorem runReq_no_handle {C D T E : Type} (evts : List (ReqEvent D T E))
    (agg : Metrics C) :
    (runReq evts ({ metrics := false } : RequestBody) agg).2 = agg := by
  induction evts generalizing agg with
  | nil => rfl
  | cons evt rest ih =>
    cases evt with
    | pollData inner => cases inner <;> simp [runReq, RequestBody.poll_data, ih]
    | pollTrailers inner => simp [runReq, RequestBody.poll_trailers, ih]

/-- With no metrics handle, every response-body step leaves the
aggregate entirely untouched and the handle stays absent. -/
theorem poll_data_no_handle {H E T C D : Type} [DecidableEq C] (now : Nat)
    (b : ResponseBody H E T C) (agg : Metrics C)
    (inner : Poll01 (Option D) E) (h : b.metrics = false) :
    (b.poll_data now agg inner).2.1 = agg ∧
      (b.poll_data now agg inner).1.metrics = false := by
  obtain ⟨cafb, clsfy, mtr, so, fb⟩ := b
  cases mtr with
  | false =>
    cases inner <;> cases cafb <;> cases clsfy <;> cases fb <;>
      simp [ResponseBody.poll_data, ResponseBody.measure_err,
        ResponseBody.record_class]
  | true => simp at h

theorem poll_trailers_no_handle {H E T C : Type} [DecidableEq C] (now : Nat)
    (b : ResponseBody H E T C) (agg : Metrics C)
    (inner : Poll01 (Option T) E) (h : b.metrics = false) :
    (b.poll_trailers now agg inner).2.1 = agg ∧
      (b.poll_trailers now agg inner).1.metrics = false := by
  obtain ⟨cafb, clsfy, mtr, so, fb⟩ := b
  cases mtr with
  | false =>
    cases inner <;> cases cafb <;> cases clsfy <;> cases fb <;>
      simp [ResponseBody.poll_trailers, ResponseBody.measure_err,
        ResponseBody.record_class]
  | true => simp at h

theorem dropFinalize_no_handle {H E T C : Type} [DecidableEq C] (now : Nat)
    (b : ResponseBody H E T C) (agg : Metrics C) (h : b.metrics = false) :
    (b.dropFinalize now agg).2.1 = agg := by
  obtain ⟨cafb, clsfy, mtr, so, fb⟩ := b
  cases mtr with
  | false =>
    cases clsfy <;>
      simp [ResponseBody.dropFinalize, ResponseBody.record_class]
  | true => simp at h

/-- With no metrics handle, a whole response-body lifetime (polls plus
drop) leaves the aggregate entirely untouched. -/
theorem runRspDrop_no_handle {H E T C D : Type} [DecidableEq C]
    (evts : List (RspEvent D T E)) (dropTime : Nat)
    (b : ResponseBody H E T C) (agg : Metrics C) (h : b.metrics = false) :
    (runRspDrop evts dropTime b agg).2.1 = agg := by
  have key : ∀ (evts : List (RspEvent D T E)) (b : ResponseBody H E T C)
      (agg : Metrics C), b.metrics = false →
      (runRsp evts b agg).2.1 = agg ∧ (runRsp evts b agg).1.metrics = false := by
    intro evts
    induction evts with
    | nil => intro b agg hb; exact ⟨rfl, hb⟩
    | cons evt rest ih =>
      intro b agg hb
      cases evt with
      | pollData now inner =>
        have hs := poll_data_no_handle now b agg inner hb
        have hr := ih (b.poll_data now agg inner).1 (b.poll_data now agg inner).2.1 hs.2
        simp only [runRsp]
        rw [hs.1] at hr ⊢
        exact hr
      | pollTrailers now inner =>
        have hs := poll_trailers_no_handle now b agg inner hb
        have hr := ih (b.poll_trailers now agg inner).1 (b.poll_trailers now agg inner).2.1 hs.2
        simp only [runRsp]
        rw [hs.1] at hr ⊢
        exact hr
  have hk := key evts b agg h
  simp only [runRspDrop]
  rw [dropFinalize_no_handle dropTime _ _ hk.2, hk.1]

/-! ## Claim theorems -/

/-- C1: starting from a response body whose metrics handle is present,
every possible lifetime — any sequence of `poll_data` / `poll_trailers`
steps with any inner results (trailers, transport errors, data frames)
followed by the guaranteed drop — records exactly one classification
event (a named class or the unclassified bucket) into the aggregate:
never zero, never more than one.  Moreover `record_class` on a body
whose handle has already been taken returns without mutating
anything. -/
theorem response_exchange_records_exactly_once {H E T C D : Type}
    [DecidableEq C] (evts : List (RspEvent D T E)) (dropTime : Nat)
    (cafb : Option C) (clsfy : Option (ClassifyResponse H E T C))
    (so : Nat) (fb : Option Nat) (agg : Metrics C) :
    ((runRspDrop evts dropTime
        ({ class_at_first_byte := cafb, classify := clsfy, metrics := true,
           stream_open_at := so, first_byte_at := fb } :
          ResponseBody H E T C) agg).2.1).classEvents =
        agg.classEvents + 1 ∧
      ∀ (now so2 : Nat) (cafb2 : Option C)
        (clsfy2 : Option (ClassifyResponse H E T C)) (fb2 : Option Nat)
        (agg2 : Metrics C) (cls : Option C),
        ResponseBody.record_class now
            { class_at_first_byte := cafb2, classify := clsfy2,
              metrics := false, stream_open_at := so2,
              first_byte_at := fb2 } agg2 cls =
          ({ class_at_first_byte := cafb2, classify := clsfy2,
             metrics := false, stream_open_at := so2,
             first_byte_at := fb2 }, agg2) := by
  constructor
  · have h := runRspDrop_conservation evts dropTime
      ({ class_at_first_byte := cafb, classify := clsfy, metrics := true,
         stream_open_at := so, first_byte_at := fb } :
        ResponseBody H E T C) agg
    simpa [handleBit] using h.1
  · intro now so2 cafb2 clsfy2 fb2 agg2 cls
    exact record_class_taken now _ agg2 cls rfl

/-- C2 counterexample: the very first `RequestBody::poll_data` that
yields a data frame (`Ready(Some(..))` — not the final guaranteed-empty
end-of-stream result) already increments the aggregate's `total`
counter, refuting "the increment happens ... on the RequestBody poll
that yields the final guaranteed-empty end-of-stream result (not on an
earlier data frame)", under which `total` would still be 0 here. -/
theorem request_total_incremented_on_first_data_frame :
    ((RequestBody.poll_data { metrics := true } (Metrics.default Nat)
          (Poll01.ready (some ()) : Poll01 (Option Unit) Unit)).2.1).total = 1 ∧
      (Poll01.ready (some ()) : Poll01 (Option Unit) Unit) ≠
        Poll01.ready none := by
  exact ⟨rfl, by decide⟩

/-- C2 amended: the `total` counter is incremented at most once per
request, and the increment happens at the earliest point a poll reports
progress: synchronously inside `Measure::call` when the body reports
`is_end_stream` at call time (consuming the request-side handle clone),
and otherwise on the first `RequestBody` poll whose inner result is
`Ready` — whether a data frame or the guaranteed-empty end-of-stream
result — never twice, because the handle is taken on first increment;
the request wrapper touches no other part of the aggregate. -/
theorem request_total_incremented_at_most_once {H E T C D T2 E2 : Type}
    (agg : Metrics C) (clsR : Option (ClassifyResponse H E T C))
    (now : Nat) (evts : List (ReqEvent D T2 E2)) (mtr : Bool) :
    ((Measure.call { metrics := true } agg true clsR now).1).total =
        agg.total + 1 ∧
      (Measure.call { metrics := true } agg true clsR now).2.1 =
        { metrics := false } ∧
      (Measure.call { metrics := mtr } agg false clsR now).1 = agg ∧
      (Measure.call { metrics := mtr } agg false clsR now).2.1 =
        { metrics := mtr } ∧
      ((runReq evts ({ metrics := mtr } : RequestBody) agg).2).total =
        agg.total + (if mtr && hasReadyData evts then 1 else 0) ∧
      ((runReq evts ({ metrics := mtr } : RequestBody) agg).2).by_class =
        agg.by_class ∧
      ((runReq evts ({ metrics := mtr } : RequestBody) agg).2).unclassified =
        agg.unclassified := by
  have hr := runReq_spec evts ({ metrics := mtr } : RequestBody) agg
  exact ⟨rfl, rfl, rfl, rfl, hr.1, hr.2.1, hr.2.2⟩

/-- C6 counterexample: a strategy whose `start` yields a head class; the
first data frame records that class, but the strategy itself is *not*
cleared — it is still held afterwards — and the subsequent trailers poll
invokes its `eos` operation, so over the exchange the strategy's
operations fire twice (`start` on the head, `eos` on the trailers),
refuting "the classification strategy is cleared so that it cannot fire
again; consequently the ... operations ... are invoked at most once per
exchange in total". -/
theorem head_class_does_not_clear_strategy :
    (let cR : ClassifyResponse Unit Unit Unit Nat :=
        { start := fun _ => some 0, error := fun _ => 1, eos := fun _ => 2 }
      let f0 : ResponseFuture Unit Unit Unit Nat :=
        { classify := some cR, metrics := true, stream_open_at := 0 }
      let s0 := f0.poll (Metrics.default Nat) (Poll01.ready ())
      s0.2.2.1 = [StratOp.start ()]) ∧
    (let cR : ClassifyResponse Unit Unit Unit Nat :=
        { start := fun _ => some 0, error := fun _ => 1, eos := fun _ => 2 }
      let b0 : ResponseBody Unit Unit Unit Nat :=
        { class_at_first_byte := some 0, classify := some cR, metrics := true,
          stream_open_at := 0, first_byte_at := none }
      let s1 := ResponseBody.poll_data 3 b0 (Metrics.default Nat)
        (Poll01.ready (some ()) : Poll01 (Option Unit) Unit)
      let s2 := ResponseBody.poll_trailers 4 s1.1 s1.2.1 (Poll01.ready none)
      (s1.2.1).classEvents = 1 ∧
        s1.1.classify.isSome = true ∧
        s2.2.2.1 = [StratOp.eos none]) := by
  exact ⟨rfl, rfl, rfl, rfl⟩

/-- C6 amended: when the first successful data frame arrives with a
pending head-derived class, the pending class is recorded and it is the
*metrics handle* (together with the pending-class slot) that is taken,
so no further classification event can ever be recorded for the
exchange; the strategy itself is not cleared on this path, but its
terminal operations (`error`/`eos`) are invoked at most once over any
body lifetime, and a future whose strategy has been taken invokes no
`start`. -/
theorem head_class_finalized_on_first_frame {H E T C D : Type}
    [DecidableEq C] (now dropTime : Nat) (c : C)
    (clsfy clsfy2 : Option (ClassifyResponse H E T C)) (so so2 : Nat)
    (fb fb2 : Option Nat) (cafb2 : Option C) (agg agg2 : Metrics C)
    (frame : Option D) (evts : List (RspEvent D T E))
    (b2 : ResponseBody H E T C) (fm : Bool) (fso : Nat)
    (inner : Poll01 H E) :
    (((ResponseBody.poll_data now
          ({ class_at_first_byte := some c, classify := clsfy,
             metrics := true, stream_open_at := so, first_byte_at := fb } :
            ResponseBody H E T C) agg (Poll01.ready frame)).2.1).classEvents =
        agg.classEvents + 1 ∧
      (ResponseBody.poll_data now
          ({ class_at_first_byte := some c, classify := clsfy,
             metrics := true, stream_open_at := so, first_byte_at := fb } :
            ResponseBody H E T C) agg (Poll01.ready frame)).1.metrics = false ∧
      (ResponseBody.poll_data now
          ({ class_at_first_byte := some c, classify := clsfy,
             metrics := true, stream_open_at := so, first_byte_at := fb } :
            ResponseBody H E T C) agg
          (Poll01.ready frame)).1.class_at_first_byte = none) ∧
      (runRspDrop evts dropTime
          ({ class_at_first_byte := cafb2, classify := clsfy2,
             metrics := false, stream_open_at := so2, first_byte_at := fb2 } :
            ResponseBody H E T C) agg2).2.1 = agg2 ∧
      ((runRspDrop evts dropTime b2 agg2).2.2).length ≤ classifyBit b2 ∧
      (ResponseFuture.poll
          ({ classify := none, metrics := fm, stream_open_at := fso } :
            ResponseFuture H E T C) agg2 inner).2.2.1 =
        ([] : List (StratOp H E T)) := by
  refine ⟨⟨?_, ?_, ?_⟩, ?_, ?_, ?_⟩
  · cases fb <;>
      simp [ResponseBody.poll_data, ResponseBody.record_class,
        classEvents_recordEvent]
  · cases fb <;> simp [ResponseBody.poll_data, ResponseBody.record_class]
  · cases fb <;> simp [ResponseBody.poll_data, ResponseBody.record_class]
  · exact runRspDrop_no_handle evts dropTime _ agg2 rfl
  · exact (runRspDrop_conservation evts dropTime b2 agg2).2
  · cases inner <;> simp [ResponseFuture.poll]

/-- C7 counterexample: an empty response body whose `poll_data` yields
`Ready(None)` at t=5 — no data frame is ever received — still has its
first-byte timestamp stamped at 5, so the class recorded by the
trailers poll at t=9 carries latency 5 and not the 9
(finalization time − stream-open time) the claim requires when "no data
frame was ever received". -/
theorem latency_stamped_by_empty_ready_poll :
    (let cR : ClassifyResponse Unit Unit Unit Nat :=
        { start := fun _ => none, error := fun _ => 1, eos := fun _ => 2 }
      let b0 : ResponseBody Unit Unit Unit Nat :=
        { class_at_first_byte := none, classify := some cR, metrics := true,
          stream_open_at := 0, first_byte_at := none }
      let r := runRsp
        [RspEvent.pollData (D := Unit) 5 (Poll01.ready none),
          RspEvent.pollTrailers 9 (Poll01.ready none)]
        b0 (Metrics.default Nat)
      (r.2.1).by_class = [(2, { total := 1, latency := [(5 : Int)] })] ∧
        (r.2.1).by_class ≠ [(2, { total := 1, latency := [(9 : Int)] })]) := by
  exact ⟨rfl, by decide⟩

theorem record_class_first_byte {H E T C : Type} [DecidableEq C] (now : Nat)
    (b : ResponseBody H E T C) (agg : Metrics C) (cls : Option C) :
    (b.record_class now agg cls).1.first_byte_at = b.first_byte_at := by
  by_cases h : b.metrics <;> simp [ResponseBody.record_class, h]

/-- C7 amended: the latency value added by a recording is non-negative
and equals the first-byte timestamp minus the stream-open timestamp
when one was stamped, and the record time minus the stream-open
timestamp otherwise — where the first-byte timestamp is stamped by the
first `poll_data` whose inner result is `Ready`, whether it carries a
data frame or the empty end-of-stream marker, and preserved
afterwards. -/
theorem latency_first_byte_attribution {H E T C D : Type} [DecidableEq C]
    (now tf t so : Nat) (cafb cafb2 : Option C)
    (clsfy clsfy2 : Option (ClassifyResponse H E T C))
    (agg agg2 : Metrics C) (cls cls2 : Option C) (mtr : Bool)
    (frame : Option D) (h1 : so ≤ tf) (h2 : so ≤ now) :
    (((ResponseBody.record_class now
          ({ class_at_first_byte := cafb, classify := clsfy, metrics := true,
             stream_open_at := so, first_byte_at := some tf } :
            ResponseBody H E T C) agg cls).2).latencySum =
        agg.latencySum + ((tf : Int) - (so : Int)) ∧
      ((ResponseBody.record_class now
          ({ class_at_first_byte := cafb, classify := clsfy, metrics := true,
             stream_open_at := so, first_byte_at := some tf } :
            ResponseBody H E T C) agg cls).2).classEvents =
        agg.classEvents + 1 ∧
      0 ≤ (tf : Int) - (so : Int)) ∧
      (((ResponseBody.record_class now
          ({ class_at_first_byte := cafb2, classify := clsfy2, metrics := true,
             stream_open_at := so, first_byte_at := none } :
            ResponseBody H E T C) agg2 cls2).2).latencySum =
        agg2.latencySum + ((now : Int) - (so : Int)) ∧
      ((ResponseBody.record_class now
          ({ class_at_first_byte := cafb2, classify := clsfy2, metrics := true,
             stream_open_at := so, first_byte_at := none } :
            ResponseBody H E T C) agg2 cls2).2).classEvents =
        agg2.classEvents + 1 ∧
      0 ≤ (now : Int) - (so : Int)) ∧
      (ResponseBody.poll_data t
          ({ class_at_first_byte := cafb, classify := clsfy, metrics := mtr,
             stream_open_at := so, first_byte_at := none } :
            ResponseBody H E T C) agg
          (Poll01.ready frame)).1.first_byte_at = some t ∧
      (ResponseBody.poll_data t
          ({ class_at_first_byte := cafb, classify := clsfy, metrics := mtr,
             stream_open_at := so, first_byte_at := some tf } :
            ResponseBody H E T C) agg
          (Poll01.ready frame)).1.first_byte_at = some tf := by
  refine ⟨⟨?_, ?_, ?_⟩, ⟨?_, ?_, ?_⟩, ?_, ?_⟩
  · simp [ResponseBody.record_class, latencySum_recordEvent]
  · simp [ResponseBody.record_class, classEvents_recordEvent]
  · omega
  · simp [ResponseBody.record_class, latencySum_recordEvent]
  · simp [ResponseBody.record_class, classEvents_recordEvent]
  · omega
  · cases cafb <;> cases mtr <;>
      simp [ResponseBody.poll_data, ResponseBody.record_class]
  · cases cafb <;> cases mtr <;>
      simp [ResponseBody.poll_data, ResponseBody.record_class]

/-- Witness for `latency_first_byte_attribution` at concrete inputs. -/
theorem latency_first_byte_attribution_witness :
    ((2 : Nat) ≤ 5 ∧ (2 : Nat) ≤ 9) ∧
      (((ResponseBody.record_class 9
          ({ class_at_first_byte := none, classify := none, metrics := true,
             stream_open_at := 2, first_byte_at := some 5 } :
            ResponseBody Unit Unit Unit Nat) (Metrics.default Nat)
          (some 3)).2).latencySum =
        (Metrics.default Nat).latencySum + ((5 : Int) - (2 : Int))) := by
  have h := latency_first_byte_attribution (H := Unit) (E := Unit) (T := Unit)
    (D := Unit) 9 5 4 2 none none none none (Metrics.default Nat)
    (Metrics.default Nat) (some 3) (some 3) true (some ())
    (by decide) (by decide)
  exact ⟨⟨by decide, by decide⟩, h.1.1⟩

/-- C8: a transport error surfaced by `poll_data` or `poll_trailers` is
propagated to the caller as the identical error value — never swallowed
or replaced — and on the way out it is routed through the strategy's
`error` operation (when the strategy is still held) and exactly one
classification event is recorded (when the metrics handle is still
held). -/
theorem transport_errors_propagate {H E T C D : Type} [DecidableEq C]
    (now : Nat) (b : ResponseBody H E T C) (agg : Metrics C) (e : E) :
    (b.poll_data (D := D) now agg (Poll01.err e)).2.2.2 = Poll01.err e ∧
      (b.poll_trailers now agg (Poll01.err e)).2.2.2 = Poll01.err e ∧
      (b.poll_data (D := D) now agg (Poll01.err e)).2.2.1 =
        (if b.classify.isSome then [StratOp.error e] else []) ∧
      (b.poll_trailers now agg (Poll01.err e)).2.2.1 =
        (if b.classify.isSome then [StratOp.error e] else []) ∧
      ((b.poll_data (D := D) now agg (Poll01.err e)).2.1).classEvents =
        agg.classEvents + handleBit b ∧
      ((b.poll_trailers now agg (Poll01.err e)).2.1).classEvents =
        agg.classEvents + handleBit b := by
  obtain ⟨cafb, clsfy, mtr, so, fb⟩ := b
  cases clsfy <;> cases mtr <;>
    simp [ResponseBody.poll_data, ResponseBody.poll_trailers,
      ResponseBody.measure_err, ResponseBody.record_class, handleBit,
      classEvents_recordEvent]

/-- C9: when the registry lock cannot be acquired but the inner factory
succeeds, `Make::make` still returns `Ok` with a handle-less `Measure`,
the registry untouched; and every operation of such an instance —
`call`, request-body polling, the whole response-body lifetime including
classification and drop — runs to completion, records nothing, and
passes the inner results through unchanged. -/
theorem lock_failure_degrades_silently {T C F S H E T2 D : Type}
    [DecidableEq T] [DecidableEq C]
    (registry : Registry T C) (target : T) (s : S) (agg : Metrics C)
    (clsR : Option (ClassifyResponse H E T2 C)) (ies : Bool)
    (now dropTime : Nat) (reqEvts : List (ReqEvent D T2 E))
    (rspEvts : List (RspEvent D T2 E)) (cafb : Option C)
    (clsfy : Option (ClassifyResponse H E T2 C)) (so : Nat)
    (fb : Option Nat) (bAny : ResponseBody H E T2 C)
    (inner : Poll01 (Option D) E) (innerT : Poll01 (Option T2) E) :
    Make.make (C := C) (F := F) false registry target (Except.ok s) =
        (Except.ok ({ metrics := false }, s), registry) ∧
      Measure.call { metrics := false } agg ies clsR now =
        (agg, { metrics := false },
          { classify := clsR, metrics := false, stream_open_at := now }) ∧
      (runReq reqEvts ({ metrics := false } : RequestBody) agg).2 = agg ∧
      (runRspDrop rspEvts dropTime
          ({ class_at_first_byte := cafb, classify := clsfy, metrics := false,
             stream_open_at := so, first_byte_at := fb } :
            ResponseBody H E T2 C) agg).2.1 = agg ∧
      (bAny.poll_data now agg inner).2.2.2 = inner ∧
      (bAny.poll_trailers now agg innerT).2.2.2 = innerT := by
  refine ⟨rfl, ?_, runReq_no_handle reqEvts agg,
    runRspDrop_no_handle rspEvts dropTime _ agg rfl,
    (poll_data_step now bAny agg inner).2.2.2,
    (poll_trailers_step now bAny agg innerT).2.2.2⟩
  cases ies <;> rfl

/-- C10: when the inner response future resolves to an error before a
response head exists, `ResponseFuture::poll` propagates the identical
error, invokes no classification-strategy operation, touches neither its
own state (the strategy is not consumed) nor the aggregate, and builds
no response-body wrapper. -/
theorem response_future_error_passthrough {H E T C : Type}
    (f : ResponseFuture H E T C) (agg : Metrics C) (e : E) :
    ResponseFuture.poll f agg (Poll01.err e) =
      (f, agg, ([] : List (StratOp H E T)), Poll01.err e) := rfl

end Linkerd
